import Mathlib

/-!
# Verification of GitLens command / quick-pick layer

Shallow embedding of three source files of the `vscode-gitlens` command and
quick-pick layer:

* `src/quickPicks/commitFileDetails.ts` — `OpenCommitFileRevisionCommandQuickPickItem`
  and `CommitFileDetailsQuickPick.show` (quick-pick item construction and the
  previous / next keyboard-navigation commands, both the direct form built from the
  cached `previousSha`/`nextSha` links and the deferred closures that re-query git
  when the cached linkage is stale);
* `src/commands/diffLineWithPrevious.ts` — `DiffLineWithPreviousCommand.execute`
  (blame resolution, the uncommitted → `DiffWithWorking` redirection, and the final
  diff + reveal-line dispatch);
* `src/views/stashFileNode.ts` — only evidences that stash commits flow into the
  quick pick; it contributes no algorithmic content of its own.

External collaborators (the git service, the editor API, the keyboard scope) are
modelled as explicit oracle parameters: a git query becomes a function argument,
a dispatched host command becomes a constructor of a result type.  Asynchrony is
erased: every `await` of an external call is an application of the corresponding
oracle, and a thrown exception from an oracle is an `Except.error`.
-/

namespace GitLens

/-- Commit type discriminator (`GitCommitType` in `gitService`): the quick pick only
distinguishes stash commits from the rest. -/
inductive GitCommitType where
  | commit
  | stash
  | file
  | branch
deriving DecidableEq, Repr

/-- A git (log) commit as the quick-pick and diff commands see it.  Fields mirror the
`GitCommit`/`GitLogCommit` classes: optional fields are `Option`, the derived getter
`isMerge` (more than one parent) is carried as a field because the class computing it
is outside the reviewed sources. -/
structure GitCommit where
  repoPath : String
  sha : String
  fileName : String
  originalFileName : Option String := none
  previousSha : Option String := none
  previousFileName : Option String := none
  nextSha : Option String := none
  nextFileName : Option String := none
  workingFileName : Option String := none
  /-- git status letter of the file in this commit (`'D'` = deleted). -/
  status : Option Char := none
  type : GitCommitType := GitCommitType.commit
  message : String := ""
  author : String := ""
  date : String := ""
  isMerge : Bool := false
deriving DecidableEq, Repr

/-- Modelled from the spec: `path.resolve(repoPath, fileName)` — joins a repository
root and a relative file path into a file-system path.  Modelled as concatenation
with a separator: an injective stand-in, treated opaquely by every claim. -/
def pathResolve (repoPath fileName : String) : String :=
  repoPath ++ "/" ++ fileName

/-- Modelled from the spec: the commit's `uri` getter — the file uri of the commit's
path, resolved against the repository root (`Uri.file(path.resolve(repoPath,
originalFileName || fileName))`).  The class defining it is not among the reviewed
sources. -/
def GitCommit.uri (c : GitCommit) : String :=
  pathResolve c.repoPath (c.originalFileName.getD c.fileName)

/-- Modelled from the spec: the commit's `previousUri` getter — the file uri of the
previous revision's path (`previousFileName || fileName`) under the repository root. -/
def GitCommit.previousUri (c : GitCommit) : String :=
  pathResolve c.repoPath (c.previousFileName.getD c.fileName)

/-- Modelled from the spec: the commit's `nextUri` getter — the file uri of the next
revision's path (`nextFileName || fileName`) under the repository root. -/
def GitCommit.nextUri (c : GitCommit) : String :=
  pathResolve c.repoPath (c.nextFileName.getD c.fileName)

/-- A git log as returned by `git.getLogForFile` / provided to `show`: a sha-keyed
map of commits (kept as an association list in insertion order, so that
`Iterables.first(log.commits.values())` is the head), the truncation flag, and the
optional sha the log was scoped to. -/
structure GitLog where
  commits : List (String × GitCommit)
  truncated : Bool := false
  sha : Option String := none
deriving DecidableEq, Repr

/-- `log.commits.get(sha)` — lookup in the sha-keyed commit map. -/
def GitLog.lookup (log : GitLog) (sha : String) : Option GitCommit :=
  List.lookup sha log.commits

/-- `Iterables.first(log.commits.values())` — the first commit of the log. -/
def GitLog.firstCommit (log : GitLog) : Option GitCommit :=
  (log.commits.head?).map Prod.snd

/-- A git content uri (`GitService.toGitContentUri`): identifies a revision of a file
by sha, file name and repository path. -/
structure GitContentUri where
  sha : String
  fileName : String
  repoPath : String
deriving DecidableEq, Repr

/-- Modelled from the spec: `GitService.toGitContentUri(commit)` — the content uri of
the commit's own revision of its file.  The `GitService` implementation is not among
the reviewed sources. -/
def toGitContentUri (c : GitCommit) : GitContentUri :=
  { sha := c.sha, fileName := c.fileName, repoPath := c.repoPath }

/-- The uri selected by the `OpenCommitFileRevisionCommandQuickPickItem` constructor
(`commitFileDetails.ts`): for a deletion (`status === 'D'`) the content uri of the
previous revision (`previousSha!`, `previousFileName!` — the TypeScript non-null
assertions become `Option.getD`), otherwise the content uri of the commit itself. -/
def openCommitFileRevisionUri (c : GitCommit) : GitContentUri :=
  if c.status = some 'D' then
    { sha := c.previousSha.getD "", fileName := c.previousFileName.getD "", repoPath := c.repoPath }
  else
    toGitContentUri c

/-- A git remote (`git.getRemotes` result): only the `provider` field matters to the
quick pick, which keeps exactly the remotes whose provider is defined. -/
structure Remote where
  name : String := ""
  provider : Option String := none
deriving DecidableEq, Repr

/-- One entry of the quick-pick item list built by `CommitFileDetailsQuickPick.show`.
Each constructor is one `items.push(...)` site of the source, carrying the data that
site threads into the pushed command's arguments. -/
inductive QPItem where
  /-- the `goBackCommand` spliced to the front when provided -/
  | goBack
  /-- `$(git-commit) Show Commit Details` -/
  | showCommitDetails (sha : String)
  /-- `$(git-compare) Compare File with Previous Revision` -/
  | compareWithPrevious (sha : String)
  /-- `$(git-compare) Compare File with Working Revision` -/
  | compareWithWorking (path : String)
  /-- `$(clippy) Copy Commit ID to Clipboard` -/
  | copySha (sha : String)
  /-- `$(clippy) Copy Message to Clipboard` -/
  | copyMessage (message : String) (sha : String)
  /-- `OpenCommitFileCommandQuickPickItem` — open the working file -/
  | openFile (path : String)
  /-- `OpenCommitFileRevisionCommandQuickPickItem` — open a revision content uri -/
  | openRevision (uri : GitContentUri)
  /-- `OpenRemotesCommandQuickPickItem` for the working file on a branch -/
  | openRemotesFile (fileName : String) (branch : String)
  /-- `OpenRemotesCommandQuickPickItem` for the file revision at this commit -/
  | openRemotesRevision (fileName : String) (sha : String)
  /-- `$(history) Show File History` of the working file -/
  | showFileHistory (path : String)
  /-- `$(history) Show (Previous) File History` scoped to this commit -/
  | showFileHistoryFrom (sha : String)
deriving DecidableEq, Repr

/-- A previous/next keyboard navigation command as installed by `show`: either a
direct `KeyCommandQuickPickItem` built from the cached linkage (carrying the target
uri, the log passed along, and the target sha), or the deferred closure that
re-queries git when invoked (its behaviour is `previousCommandRun`/`nextCommandRun`
below). -/
inductive NavCmd where
  | key (uri : String) (fileLog : Option GitLog) (sha : String)
  | deferred
deriving DecidableEq, Repr

/-- The result of invoking a deferred navigation closure: either `KeyNoopCommand` or
a `KeyCommandQuickPickItem` navigating to `sha` (carrying the log it passes on). -/
inductive KeyCmdResult where
  | noop
  | navigate (uri : String) (fileLog : Option GitLog) (sha : String)
deriving DecidableEq, Repr

/-- Shared tail of the previous-command closure: `if (c === undefined ||
c.previousSha === undefined) return KeyNoopCommand;` followed by the
`KeyCommandQuickPickItem` on `c.previousUri` / `c.previousSha` with the given log. -/
def finishPrevious (log : Option GitLog) (c : Option GitCommit) : KeyCmdResult :=
  match c with
  | none => KeyCmdResult.noop
  | some c =>
    match c.previousSha with
    | none => KeyCmdResult.noop
    | some ps => KeyCmdResult.navigate c.previousUri log ps

/-- The deferred `previousCommand` closure of `CommitFileDetailsQuickPick.show`.
`getLogForFile repoPath fsPath sha maxCount` is the oracle for
`git.getLogForFile(..., { maxCount })` (`none` = query failed), `maxQuickHistory` is
`git.config.advanced.maxQuickHistory`.  When the commit is missing from the provided
log or its cached `previousSha` is undefined, the file log is re-queried; on success
the commit is looked up in the fresh log (falling back to the log's first commit for
a merge commit, since merges are excluded from file logs) and its next-linkage is
overwritten from the trusted captured commit. -/
def previousCommandRun
    (getLogForFile : String → String → String → Nat → Option GitLog)
    (maxQuickHistory : Nat)
    (fileLog : Option GitLog) (commit : GitCommit) (uriFsPath : String) : KeyCmdResult :=
  let c0 := fileLog.bind (fun l => l.lookup commit.sha)
  if c0.isNone || (c0.bind GitCommit.previousSha).isNone then
    match getLogForFile commit.repoPath uriFsPath commit.sha maxQuickHistory with
    | none => KeyCmdResult.noop
    | some log =>
      let c1 := log.lookup commit.sha
      let c2 := if c1.isNone && commit.isMerge then log.firstCommit else c1
      let c3 := c2.map (fun c => { c with nextSha := commit.nextSha, nextFileName := commit.nextFileName })
      finishPrevious (some log) c3
  else
    finishPrevious fileLog c0

/-- Shared tail of the next-command closure: noop unless `c` and `c.nextSha` are
defined, else the `KeyCommandQuickPickItem` on `c.nextUri` / `c.nextSha`. -/
def finishNext (log : Option GitLog) (c : Option GitCommit) : KeyCmdResult :=
  match c with
  | none => KeyCmdResult.noop
  | some c =>
    match c.nextSha with
    | none => KeyCmdResult.noop
    | some ns => KeyCmdResult.navigate c.nextUri log ns

/-- The deferred `nextCommand` closure of `CommitFileDetailsQuickPick.show`.
`findNextCommit repoPath fsPath sha` is the oracle for `git.findNextCommit`.  When
the commit is missing from the provided log or its cached `nextSha` is undefined,
both the log and the commit are dropped and the next commit is queried; only a
result with a different sha reinstates the commit (with its next-linkage filled
from the query). -/
def nextCommandRun
    (findNextCommit : String → String → String → Option GitCommit)
    (fileLog : Option GitLog) (commit : GitCommit) (uriFsPath : String) : KeyCmdResult :=
  let c0 := fileLog.bind (fun l => l.lookup commit.sha)
  if c0.isNone || (c0.bind GitCommit.nextSha).isNone then
    match findNextCommit commit.repoPath uriFsPath commit.sha with
    | some next =>
      if next.sha ≠ commit.sha then
        finishNext none (some { commit with
          nextSha := some next.sha,
          nextFileName := some (next.originalFileName.getD next.fileName) })
      else finishNext none none
    | none => finishNext none none
  else finishNext fileLog c0

/-- The previous/next navigation pair installed by `show`: nothing for a stash; the
direct `KeyCommandQuickPickItem`s from the cached `previousSha`/`nextSha` when the
full history is at hand (`fileLog` defined, not truncated, not sha-scoped); the
deferred closures otherwise. -/
def buildNavCommands (stash : Bool) (c : GitCommit) (fileLog : Option GitLog) :
    Option NavCmd × Option NavCmd :=
  if stash then (none, none)
  else
    match fileLog with
    | some l =>
      if l.truncated = false ∧ l.sha = none then
        (c.previousSha.map (fun ps => NavCmd.key c.previousUri (some l) ps),
         c.nextSha.map (fun ns => NavCmd.key c.nextUri (some l) ns))
      else (some NavCmd.deferred, some NavCmd.deferred)
    | none => (some NavCmd.deferred, some NavCmd.deferred)

/-- The quick-pick item list built by `show` for the (already resolved) commit `c`,
in source push order, with the `goBackCommand` spliced to index 0 at the end when
provided. -/
def buildItems (stash : Bool) (c : GitCommit) (remotes : List Remote)
    (branchName : String) (goBack : Bool) : List QPItem :=
  let remotesWithProvider := remotes.filter (fun r => r.provider.isSome)
  let items :=
    (if stash then [] else
      [QPItem.showCommitDetails c.sha] ++
      (if c.previousSha.isSome then [QPItem.compareWithPrevious c.sha] else [])) ++
    (match c.workingFileName with
     | some w => [QPItem.compareWithWorking (pathResolve c.repoPath w)]
     | none => []) ++
    (if stash then [] else [QPItem.copySha c.sha, QPItem.copyMessage c.message c.sha]) ++
    (if c.workingFileName.isSome && c.status ≠ some 'D' then
      [QPItem.openFile (pathResolve c.repoPath c.fileName)] else []) ++
    [QPItem.openRevision (openCommitFileRevisionUri c)] ++
    (if remotesWithProvider.length > 0 then
      (if c.workingFileName.isSome && c.status ≠ some 'D' then
        [QPItem.openRemotesFile (c.workingFileName.getD "") branchName] else []) ++
      (if stash then [] else [QPItem.openRemotesRevision c.fileName c.sha])
     else []) ++
    (match c.workingFileName with
     | some w => [QPItem.showFileHistory (pathResolve c.repoPath w)]
     | none => []) ++
    (if stash then [] else [QPItem.showFileHistoryFrom c.sha])
  if goBack then QPItem.goBack :: items else items

/-- What `CommitFileDetailsQuickPick.show` hands to the quick-pick UI: the resolved
commit, the item list, and the previous/next keyboard navigation commands it begins
the keyboard scope with. -/
structure ShowResult where
  commit : GitCommit
  items : List QPItem
  previousCommand : Option NavCmd
  nextCommand : Option NavCmd
deriving Repr

/-- Builds the `ShowResult` for the resolved commit `c` (the stash flag was computed
from the original commit before any uncommitted replacement). -/
def mkShowResult (getRemotes : String → List Remote) (branchName : String)
    (stash : Bool) (goBack : Bool) (fileLog : Option GitLog) (c : GitCommit) :
    ShowResult :=
  { commit := c,
    items := buildItems stash c (getRemotes c.repoPath) branchName goBack,
    previousCommand := (buildNavCommands stash c fileLog).1,
    nextCommand := (buildNavCommands stash c fileLog).2 }

/-- `CommitFileDetailsQuickPick.show` up to the UI boundary.  `isUncomm` models
`GitService.isUncommitted` on a sha; `getLogCommitPrev` is the oracle for
`git.getLogCommit(undefined, commit.uri.fsPath, { previous: true })` keyed by the
commit's uri; `getRemotes` for `git.getRemotes(repoPath)`; `branchName` for the
branch `git.getBranch` resolves.  An uncommitted commit is first replaced by the
last committed revision of the file; `none` is the source's `return undefined` when
that lookup finds nothing. -/
def CommitFileDetailsQuickPick.show (isUncomm : String → Bool)
    (getLogCommitPrev : String → Option GitCommit)
    (getRemotes : String → List Remote) (branchName : String)
    (commit : GitCommit) (goBack : Bool) (fileLog : Option GitLog) :
    Option ShowResult :=
  let stash := decide (commit.type = GitCommitType.stash)
  if isUncomm commit.sha then
    match getLogCommitPrev commit.uri with
    | none => none
    | some c => some (mkShowResult getRemotes branchName stash goBack fileLog c)
  else some (mkShowResult getRemotes branchName stash goBack fileLog commit)

/-- The git uri the diff command derives from the editor uri (`GitUri.fromUri`):
the file-system path, the optional revision sha, the repository path, and the line
offset of a partial-file revision view. -/
structure GitUri where
  fsPath : String
  sha : Option String := none
  repoPath : String := ""
  offset : Nat := 0
deriving DecidableEq, Repr

/-- The line record of a blame result: `blame.line.line` is the 0-based line number
in the blamed revision. -/
structure GitCommitLine where
  line : Nat
deriving DecidableEq, Repr

/-- A `getBlameForLine` result: the commit that last touched the line, and the line
record. -/
structure Blame where
  commit : GitCommit
  line : GitCommitLine
deriving DecidableEq, Repr

/-- `new GitCommit(commit.repoPath, commit.previousSha, commit.previousFileName,
commit.author, commit.date, commit.message)` — the previous-revision commit the diff
command substitutes.  TypeScript passes the possibly-undefined `previousSha` /
`previousFileName` into `string` parameters; `Option.getD ""` models that.  Fields
the constructor does not take keep their defaults (undefined / non-merge). -/
def previousOf (c : GitCommit) : GitCommit :=
  { repoPath := c.repoPath, sha := c.previousSha.getD "", fileName := c.previousFileName.getD "",
    author := c.author, date := c.date, message := c.message }

/-- A host command the diff command dispatches through `commands.executeCommand`.
The title string of the built-in diff (basenames and shas) is not carried. -/
inductive HostCmd where
  /-- `Commands.DiffWithWorking` with a uri, a commit and a line -/
  | diffWithWorking (uri : String) (commit : GitCommit) (line : Int)
  /-- `BuiltInCommands.Diff` on two versioned files (left shown left, right shown right) -/
  | diff (left : String) (right : String)
  /-- `BuiltInCommands.RevealLine` with `{ lineNumber: line, at: 'center' }` -/
  | revealLineCenter (line : Int)
deriving DecidableEq, Repr

/-- The observable outcome of `DiffLineWithPreviousCommand.execute`: a silent
`return undefined`, the warning message (file not under source control), the error
message (a caught exception), or the dispatched host commands in order. -/
inductive DLResult where
  | noop
  | warningMsg
  | errorMsg
  | dispatched (cmds : List HostCmd)
deriving DecidableEq, Repr

/-- The final diff stage of `execute`: resolve both versioned files
(`Promise.all`, so a failure of either is the caught exception → error message),
then dispatch the built-in Diff on them (the commit's revision left, the
editor-uri's revision right) followed by RevealLine centered on `line`. -/
def diffStage (getVersionedFile : String → String → Option String → Except Unit String)
    (gitUri : GitUri) (commit : GitCommit) (line : Int) : DLResult :=
  match getVersionedFile gitUri.fsPath gitUri.repoPath gitUri.sha,
        getVersionedFile commit.uri commit.repoPath (some commit.sha) with
  | Except.ok v0, Except.ok v1 =>
    DLResult.dispatched [HostCmd.diff v1 v0, HostCmd.revealLineCenter line]
  | Except.error _, _ => DLResult.errorMsg
  | _, Except.error _ => DLResult.errorMsg

/-- The blame branch of `execute`, taken when no commit was supplied or the supplied
commit is uncommitted: bail out on a negative blame line, blame the line (an
exception is the caught error, an empty result the warning), substitute the blamed
commit's previous revision when the editor uri already sits on the blamed sha, and
redirect an uncommitted resolved commit to `DiffWithWorking` on its previous
revision; otherwise fall through to the diff stage. -/
def blameAndDiff (isUncomm : String → Bool)
    (getBlameForLine : String → Int → Option String → String → Except Unit (Option Blame))
    (getVersionedFile : String → String → Option String → Except Unit String)
    (gitUri : GitUri) (line : Int) : DLResult :=
  let blameline : Int := line - (gitUri.offset : Int)
  if blameline < 0 then DLResult.noop
  else
    match getBlameForLine gitUri.fsPath blameline gitUri.sha gitUri.repoPath with
    | Except.error _ => DLResult.errorMsg
    | Except.ok none => DLResult.warningMsg
    | Except.ok (some blame) =>
      let resolved :=
        if gitUri.sha = some blame.commit.sha then
          (previousOf blame.commit, (blame.line.line : Int) + 1 + (gitUri.offset : Int))
        else (blame.commit, line)
      if isUncomm resolved.1.sha then
        DLResult.dispatched [HostCmd.diffWithWorking resolved.1.uri (previousOf resolved.1)
          ((blame.line.line : Int) + 1 + (gitUri.offset : Int))]
      else
        diffStage getVersionedFile gitUri resolved.1 resolved.2

/-- The uri resolution at the top of `execute`: the supplied `uri` when it is a
`Uri`, else the editor's document uri, else the command bails out. -/
def resolveUri (uriArg editorDoc : Option String) : Option String :=
  match uriArg with
  | some u => some u
  | none => editorDoc

/-- `line = line || editor.selection.active.line` — the supplied line argument,
except that an absent argument (and, `0` being falsy in TypeScript, a supplied `0`)
is replaced by the editor's active selection line. -/
def resolveLine (lineArg : Option Int) (editorLine : Int) : Int :=
  match lineArg with
  | some l => if l = 0 then editorLine else l
  | none => editorLine

/-- `DiffLineWithPreviousCommand.execute`.  `uriArg` is the `uri` argument
(`undefined` when not a `Uri`), `editorDoc` the editor's document uri, `editorLine`
the active selection line, `lineArg` the optional `line` argument (a supplied 0 is
falsy and is replaced by the editor line, as in the source), `commitArg` the
optional supplied commit.  `fromUri` models `GitUri.fromUri`. -/
def DiffLineWithPreviousCommand.execute (isUncomm : String → Bool)
    (fromUri : String → GitUri)
    (getBlameForLine : String → Int → Option String → String → Except Unit (Option Blame))
    (getVersionedFile : String → String → Option String → Except Unit String)
    (uriArg : Option String) (editorDoc : Option String)
    (editorLine : Int) (lineArg : Option Int)
    (commitArg : Option GitCommit) : DLResult :=
  match resolveUri uriArg editorDoc with
  | none => DLResult.noop
  | some uri =>
    let line : Int := resolveLine lineArg editorLine
    let gitUri := fromUri uri
    match commitArg with
    | some commit =>
      if isUncomm commit.sha then
        blameAndDiff isUncomm getBlameForLine getVersionedFile gitUri line
      else
        diffStage getVersionedFile gitUri commit line
    | none => blameAndDiff isUncomm getBlameForLine getVersionedFile gitUri line

/-- The quick-pick entries that only exist for a real (non-stash) commit: commit
details, compare-with-previous, the two clipboard copies, the revision remote item
and the from-commit file history — exactly the pushes guarded by `if (!stash)`. -/
def QPItem.isCommitSpecific : QPItem → Bool
  | QPItem.showCommitDetails _ => true
  | QPItem.compareWithPrevious _ => true
  | QPItem.copySha _ => true
  | QPItem.copyMessage _ _ => true
  | QPItem.openRemotesRevision _ _ => true
  | QPItem.showFileHistoryFrom _ => true
  | _ => false

/-! Concrete fixtures used to instantiate theorems with hypotheses. -/

/-- A committed, modified file revision with full previous/next linkage. -/
def commitB : GitCommit :=
  { repoPath := "r", sha := "b2", fileName := "f.ts",
    previousSha := some "a1", previousFileName := some "f.ts",
    nextSha := some "c3", nextFileName := some "f.ts",
    workingFileName := some "f.ts", status := some 'M', message := "fix" }

/-- A root-like commit without linkage. -/
def commitA : GitCommit :=
  { repoPath := "r", sha := "a1", fileName := "f.ts", message := "init" }

/-- A commit that deleted its file. -/
def commitDel : GitCommit :=
  { repoPath := "r", sha := "d4", fileName := "g.ts",
    previousSha := some "b2", previousFileName := some "g.ts", status := some 'D' }

/-- A stash revision of `f.ts`. -/
def commitStash : GitCommit :=
  { repoPath := "r", sha := "s5", fileName := "f.ts",
    workingFileName := some "f.ts", type := GitCommitType.stash, message := "wip" }

/-- A complete (untruncated, unscoped) single-file log containing `commitB`. -/
def logFull : GitLog :=
  { commits := [("b2", commitB)], truncated := false, sha := none }

/-- A truncated log missing `commitA`, making cached linkage stale. -/
def logStale : GitLog :=
  { commits := [("b2", commitB)], truncated := true, sha := none }

/-- An uncommitted working-tree revision as blame reports it. -/
def commitW : GitCommit :=
  { repoPath := "r", sha := "0000", fileName := "f.ts",
    previousSha := some "b2", previousFileName := some "f.ts" }

/-- A concrete stand-in for `GitService.isUncommitted` in witnesses: exactly the
sha `"0000"` counts as uncommitted. -/
def isUncommFx (sha : String) : Bool :=
  decide (sha = "0000")

/-- **C5.** Constructing an `OpenCommitFileRevisionCommandQuickPickItem` selects the
open target by deletion status: for a commit with status `'D'` (whose previous
linkage, non-null-asserted in the source, is present) the content uri is built from
the commit's `previousSha` and `previousFileName`; for any other status it is built
from the commit itself. -/
theorem openRevisionItem_target_by_deletion_status (c : GitCommit) (ps pfn : String)
    (hps : c.previousSha = some ps) (hpfn : c.previousFileName = some pfn) :
    (c.status = some 'D' →
      openCommitFileRevisionUri c = { sha := ps, fileName := pfn, repoPath := c.repoPath }) ∧
    (c.status ≠ some 'D' → openCommitFileRevisionUri c = toGitContentUri c) := by
  constructor <;> intro h <;> simp [openCommitFileRevisionUri, h, hps, hpfn]

/-- Witness for C5 at the deleted-file fixture. -/
theorem openRevisionItem_target_by_deletion_status_witness :
    (commitDel.status = some 'D' →
      openCommitFileRevisionUri commitDel =
        { sha := "b2", fileName := "g.ts", repoPath := commitDel.repoPath }) ∧
    (commitDel.status ≠ some 'D' → openCommitFileRevisionUri commitDel = toGitContentUri commitDel) :=
  openRevisionItem_target_by_deletion_status commitDel "b2" "g.ts" rfl rfl

/-- The `items.splice(0, 0, goBackCommand)` step: building with the go-back command
prepends exactly it to the list built without it. -/
theorem buildItems_goBack_cons (stash : Bool) (c : GitCommit) (rem : List Remote) (bn : String) :
    buildItems stash c rem bn true = QPItem.goBack :: buildItems stash c rem bn false := by
  simp [buildItems]

/-- **C10.** Whenever a `goBackCommand` is provided, `show` produces exactly the
picker it would produce without one, with the go-back item prepended as the first
item — ahead of every commit, file, remote and history action, for every commit type
and flag combination. -/
theorem goBackCommand_is_first_item (iu : String → Bool) (glc : String → Option GitCommit)
    (gr : String → List Remote) (bn : String) (commit : GitCommit) (log : Option GitLog) :
    CommitFileDetailsQuickPick.show iu glc gr bn commit true log =
      (CommitFileDetailsQuickPick.show iu glc gr bn commit false log).map
        (fun r => { r with items := QPItem.goBack :: r.items }) := by
  unfold CommitFileDetailsQuickPick.show mkShowResult
  cases hiu : iu commit.sha <;> simp [hiu, buildItems_goBack_cons]
  cases hg : glc commit.uri <;> simp [hg, buildItems_goBack_cons]

/-- **C9.** For an uncommitted input commit, `show` first replaces the commit by the
last committed revision of the file (the `git.getLogCommit(..., { previous: true })`
result), and returns `undefined` without building a picker when no such commit
exists. -/
theorem uncommitted_input_replaced (iu : String → Bool) (glc : String → Option GitCommit)
    (gr : String → List Remote) (bn : String) (commit : GitCommit) (gb : Bool)
    (log : Option GitLog) (hunc : iu commit.sha = true) :
    (glc commit.uri = none →
      CommitFileDetailsQuickPick.show iu glc gr bn commit gb log = none) ∧
    (∀ c r, glc commit.uri = some c →
      CommitFileDetailsQuickPick.show iu glc gr bn commit gb log = some r → r.commit = c) := by
  unfold CommitFileDetailsQuickPick.show
  constructor
  · intro h
    simp [hunc, h]
  · intro c r hg hs
    simp [hunc, hg, mkShowResult] at hs
    subst hs
    rfl

/-- Witness for C9: an uncommitted commit whose file has no committed revision. -/
theorem uncommitted_input_replaced_witness :
    ((fun _ => none : String → Option GitCommit) commitW.uri = none →
      CommitFileDetailsQuickPick.show isUncommFx (fun _ => none) (fun _ => []) "main"
        commitW false none = none) ∧
    (∀ c r, (fun _ => none : String → Option GitCommit) commitW.uri = some c →
      CommitFileDetailsQuickPick.show isUncommFx (fun _ => none) (fun _ => []) "main"
        commitW false none = some r → r.commit = c) :=
  uncommitted_input_replaced isUncommFx (fun _ => none) (fun _ => []) "main" commitW false none
    (by decide)

/-- Overwriting the next-linkage of a freshly looked-up commit changes neither its
`previousSha` nor its `previousUri`, so the previous-navigation result is that of
the bare lookup. -/
theorem finishPrevious_map_next (log : GitLog) (o : Option GitCommit) (ns nf : Option String) :
    finishPrevious (some log)
      (o.map (fun c => { c with nextSha := ns, nextFileName := nf })) =
      match o with
      | none => KeyCmdResult.noop
      | some c =>
        match c.previousSha with
        | none => KeyCmdResult.noop
        | some ps => KeyCmdResult.navigate c.previousUri (some log) ps := by
  cases o with
  | none => rfl
  | some c => cases hp : c.previousSha <;> simp [finishPrevious, GitCommit.previousUri, hp]

/-- **C1.** When the cached linkage is stale (the commit is missing from the
provided file log, or its `previousSha` is undefined), the deferred previous-commit
command re-queries the file log through `git.getLogForFile` bounded by the
configured `maxQuickHistory` count, resolves the previous commit from that fresh log
(falling back to the log's first commit for a merge), and returns the no-op key
command when the query fails or the re-fetched commit still has no previous sha. -/
theorem stale_previous_requeries_log
    (glf : String → String → String → Nat → Option GitLog) (mqh : Nat)
    (fileLog : Option GitLog) (commit : GitCommit) (fsPath : String)
    (hstale : fileLog.bind (fun l => l.lookup commit.sha) = none ∨
      (fileLog.bind (fun l => l.lookup commit.sha)).bind GitCommit.previousSha = none) :
    previousCommandRun glf mqh fileLog commit fsPath =
      match glf commit.repoPath fsPath commit.sha mqh with
      | none => KeyCmdResult.noop
      | some log =>
        match (if (log.lookup commit.sha).isNone && commit.isMerge then log.firstCommit
               else log.lookup commit.sha) with
        | none => KeyCmdResult.noop
        | some c =>
          match c.previousSha with
          | none => KeyCmdResult.noop
          | some ps => KeyCmdResult.navigate c.previousUri (some log) ps := by
  have hcond : ((fileLog.bind (fun l => l.lookup commit.sha)).isNone ||
      ((fileLog.bind (fun l => l.lookup commit.sha)).bind GitCommit.previousSha).isNone) = true := by
    rcases hstale with h | h <;> simp [h]
  unfold previousCommandRun
  simp only [hcond, if_true]
  cases hg : glf commit.repoPath fsPath commit.sha mqh with
  | none => rfl
  | some log => exact finishPrevious_map_next log _ commit.nextSha commit.nextFileName

/-- Witness for C1: no log provided (stale), the re-query succeeds, and the
navigation resolves from the fresh log. -/
theorem stale_previous_requeries_log_witness :
    previousCommandRun (fun _ _ _ _ => some logFull) 200 none commitB "r/f.ts" =
      KeyCmdResult.navigate "r/f.ts" (some logFull) "a1" := by
  rw [stale_previous_requeries_log (fun _ _ _ _ => some logFull) 200 none commitB "r/f.ts"
    (Or.inl rfl)]
  rfl

/-- **C2.** When the cached next-link is stale (the commit is missing from the
provided file log, or its `nextSha` is undefined), the deferred next-commit command
queries `git.findNextCommit` and produces a navigation command exactly when the
query returns a commit whose sha differs from the current one; otherwise it returns
the no-op key command. -/
theorem stale_next_requeries_git
    (fnc : String → String → String → Option GitCommit)
    (fileLog : Option GitLog) (commit : GitCommit) (fsPath : String)
    (hstale : fileLog.bind (fun l => l.lookup commit.sha) = none ∨
      (fileLog.bind (fun l => l.lookup commit.sha)).bind GitCommit.nextSha = none) :
    nextCommandRun fnc fileLog commit fsPath =
      match fnc commit.repoPath fsPath commit.sha with
      | none => KeyCmdResult.noop
      | some next =>
        if next.sha = commit.sha then KeyCmdResult.noop
        else
          KeyCmdResult.navigate
            (pathResolve commit.repoPath (next.originalFileName.getD next.fileName))
            none next.sha := by
  have hcond : ((fileLog.bind (fun l => l.lookup commit.sha)).isNone ||
      ((fileLog.bind (fun l => l.lookup commit.sha)).bind GitCommit.nextSha).isNone) = true := by
    rcases hstale with h | h <;> simp [h]
  unfold nextCommandRun
  simp only [hcond, if_true]
  cases hn : fnc commit.repoPath fsPath commit.sha with
  | none => rfl
  | some next =>
    by_cases hs : next.sha = commit.sha
    · simp [hs, finishNext]
    · simp [hs, finishNext, GitCommit.nextUri]

/-- Witness for C2: no log provided (stale), `findNextCommit` returns a commit with
a different sha, and a navigation command is produced. -/
theorem stale_next_requeries_git_witness :
    nextCommandRun (fun _ _ _ => some commitA) none commitB "r/f.ts" =
      KeyCmdResult.navigate "r/f.ts" none "a1" := by
  rw [stale_next_requeries_git (fun _ _ _ => some commitA) none commitB "r/f.ts" (Or.inl rfl)]
  rfl

/-- **C3.** For a non-stash commit with a complete file history at hand (a file log
that is defined, not truncated and not scoped to a single sha), `show` builds the
previous and next navigation commands directly from the resolved commit's cached
`previousSha`/`nextSha` links — no deferred git re-query — and each command is
absent exactly when the corresponding cached sha is undefined. -/
theorem full_history_direct_nav (iu : String → Bool) (glc : String → Option GitCommit)
    (gr : String → List Remote) (bn : String) (commit : GitCommit) (gb : Bool)
    (l : GitLog) (r : ShowResult)
    (hstash : commit.type ≠ GitCommitType.stash)
    (htrunc : l.truncated = false) (hsha : l.sha = none)
    (hshow : CommitFileDetailsQuickPick.show iu glc gr bn commit gb (some l) = some r) :
    r.previousCommand =
      r.commit.previousSha.map (fun ps => NavCmd.key r.commit.previousUri (some l) ps) ∧
    r.nextCommand =
      r.commit.nextSha.map (fun ns => NavCmd.key r.commit.nextUri (some l) ns) := by
  unfold CommitFileDetailsQuickPick.show at hshow
  by_cases hiu : iu commit.sha = true
  · rw [if_pos hiu] at hshow
    cases hg : glc commit.uri with
    | none => rw [hg] at hshow; exact absurd hshow (by simp)
    | some c =>
      rw [hg] at hshow
      rw [Option.some.injEq] at hshow
      subst hshow
      simp [mkShowResult, buildNavCommands, hstash, htrunc, hsha]
  · rw [if_neg hiu] at hshow
    rw [Option.some.injEq] at hshow
    subst hshow
    simp [mkShowResult, buildNavCommands, hstash, htrunc, hsha]

/-- Witness for C3 at a complete single-file log and a fully linked commit. -/
theorem full_history_direct_nav_witness :
    (mkShowResult (fun _ => []) "main" false false (some logFull) commitB).previousCommand =
      (mkShowResult (fun _ => []) "main" false false (some logFull) commitB).commit.previousSha.map
        (fun ps =>
          NavCmd.key
            (mkShowResult (fun _ => []) "main" false false (some logFull) commitB).commit.previousUri
            (some logFull) ps) ∧
    (mkShowResult (fun _ => []) "main" false false (some logFull) commitB).nextCommand =
      (mkShowResult (fun _ => []) "main" false false (some logFull) commitB).commit.nextSha.map
        (fun ns =>
          NavCmd.key
            (mkShowResult (fun _ => []) "main" false false (some logFull) commitB).commit.nextUri
            (some logFull) ns) :=
  full_history_direct_nav (fun _ => false) (fun _ => none) (fun _ => []) "main" commitB false
    logFull (mkShowResult (fun _ => []) "main" false false (some logFull) commitB)
    (by decide) rfl rfl rfl

/-- **C4.** When the blame-resolved commit is uncommitted, `execute` does not open a
revision diff itself: it substitutes the commit's previous revision and dispatches
the `DiffWithWorking` command with the commit's uri, the substituted commit and the
recomputed line, returning that dispatch's result. -/
theorem uncommitted_redirects_to_diffWithWorking (iu : String → Bool)
    (fromUri : String → GitUri)
    (gbl : String → Int → Option String → String → Except Unit (Option Blame))
    (gvf : String → String → Option String → Except Unit String)
    (uri : String) (editorDoc : Option String) (editorLine : Int) (lineArg : Option Int)
    (commitArg : Option GitCommit) (blame : Blame) (resolved : GitCommit)
    (hC : commitArg.all (fun c => iu c.sha) = true)
    (hbl : 0 ≤ resolveLine lineArg editorLine - ((fromUri uri).offset : Int))
    (hblame : gbl (fromUri uri).fsPath
      (resolveLine lineArg editorLine - ((fromUri uri).offset : Int))
      (fromUri uri).sha (fromUri uri).repoPath = Except.ok (some blame))
    (hres : resolved = if (fromUri uri).sha = some blame.commit.sha
      then previousOf blame.commit else blame.commit)
    (hunc : iu resolved.sha = true) :
    DiffLineWithPreviousCommand.execute iu fromUri gbl gvf (some uri) editorDoc editorLine
        lineArg commitArg =
      DLResult.dispatched [HostCmd.diffWithWorking resolved.uri (previousOf resolved)
        ((blame.line.line : Int) + 1 + ((fromUri uri).offset : Int))] := by
  have hstep : blameAndDiff iu gbl gvf (fromUri uri) (resolveLine lineArg editorLine) =
      DLResult.dispatched [HostCmd.diffWithWorking resolved.uri (previousOf resolved)
        ((blame.line.line : Int) + 1 + ((fromUri uri).offset : Int))] := by
    unfold blameAndDiff
    rw [if_neg (not_lt.mpr hbl), hblame]
    by_cases hsha : (fromUri uri).sha = some blame.commit.sha
    · rw [if_pos hsha] at hres
      subst hres
      simp [hsha, hunc]
    · rw [if_neg hsha] at hres
      subst hres
      simp [hsha, hunc]
  unfold DiffLineWithPreviousCommand.execute
  cases commitArg with
  | none => exact hstep
  | some c =>
    have hc : iu c.sha = true := by simpa [Option.all] using hC
    simpa [resolveUri, hc] using hstep

/-- Witness for C4: a blame result on a working-tree line whose commit is
uncommitted, redirected to `DiffWithWorking` against its previous revision. -/
theorem uncommitted_redirects_to_diffWithWorking_witness :
    DiffLineWithPreviousCommand.execute isUncommFx
        (fun u => { fsPath := u, repoPath := "r" })
        (fun _ _ _ _ => Except.ok (some { commit := commitW, line := { line := 4 } }))
        (fun f _ _ => Except.ok (f ++ "@v"))
        (some "r/f.ts") none 7 none none =
      DLResult.dispatched [HostCmd.diffWithWorking commitW.uri (previousOf commitW) 5] :=
  uncommitted_redirects_to_diffWithWorking isUncommFx
    (fun u => { fsPath := u, repoPath := "r" })
    (fun _ _ _ _ => Except.ok (some { commit := commitW, line := { line := 4 } }))
    (fun f _ _ => Except.ok (f ++ "@v"))
    "r/f.ts" none 7 none none { commit := commitW, line := { line := 4 } } commitW
    rfl (by decide) rfl (by decide) (by decide)

/-- **C7.** Reaching the diff stage with a resolved committed commit, `execute`
resolves both versioned file contents and dispatches exactly two host commands in
order: the built-in Diff on the two resolved files — the commit's (previous)
revision left, the editor uri's revision right — followed by the built-in
RevealLine centered on the selected line. -/
theorem committed_diff_dispatches_diff_then_reveal (iu : String → Bool)
    (fromUri : String → GitUri)
    (gbl : String → Int → Option String → String → Except Unit (Option Blame))
    (gvf : String → String → Option String → Except Unit String)
    (uri : String) (editorDoc : Option String) (editorLine : Int) (lineArg : Option Int)
    (commit : GitCommit) (gitUri : GitUri) (v0 v1 : String)
    (hg : fromUri uri = gitUri)
    (hv0 : gvf gitUri.fsPath gitUri.repoPath gitUri.sha = Except.ok v0)
    (hv1 : gvf commit.uri commit.repoPath (some commit.sha) = Except.ok v1)
    (hiu : iu commit.sha = false) :
    (∀ line, diffStage gvf gitUri commit line =
      DLResult.dispatched [HostCmd.diff v1 v0, HostCmd.revealLineCenter line]) ∧
    DiffLineWithPreviousCommand.execute iu fromUri gbl gvf (some uri) editorDoc editorLine
        lineArg (some commit) =
      DLResult.dispatched [HostCmd.diff v1 v0,
        HostCmd.revealLineCenter (resolveLine lineArg editorLine)] := by
  have hstage : ∀ line, diffStage gvf gitUri commit line =
      DLResult.dispatched [HostCmd.diff v1 v0, HostCmd.revealLineCenter line] := by
    intro line
    unfold diffStage
    rw [hv0, hv1]
  refine ⟨hstage, ?_⟩
  unfold DiffLineWithPreviousCommand.execute
  simpa [resolveUri, hiu, hg] using hstage (resolveLine lineArg editorLine)

/-- Witness for C7: a supplied committed commit, both versioned files resolving. -/
theorem committed_diff_dispatches_diff_then_reveal_witness :
    (∀ line, diffStage (fun f _ s => Except.ok (f ++ "@" ++ (s.getD "w")))
        { fsPath := "r/f.ts", repoPath := "r" } commitB line =
      DLResult.dispatched [HostCmd.diff "r/f.ts@b2" "r/f.ts@w",
        HostCmd.revealLineCenter line]) ∧
    DiffLineWithPreviousCommand.execute isUncommFx (fun u => { fsPath := u, repoPath := "r" })
        (fun _ _ _ _ => Except.ok none) (fun f _ s => Except.ok (f ++ "@" ++ (s.getD "w")))
        (some "r/f.ts") none 7 none (some commitB) =
      DLResult.dispatched [HostCmd.diff "r/f.ts@b2" "r/f.ts@w", HostCmd.revealLineCenter 7] :=
  committed_diff_dispatches_diff_then_reveal isUncommFx
    (fun u => { fsPath := u, repoPath := "r" })
    (fun _ _ _ _ => Except.ok none) (fun f _ s => Except.ok (f ++ "@" ++ (s.getD "w")))
    "r/f.ts" none 7 none commitB { fsPath := "r/f.ts", repoPath := "r" } "r/f.ts@w" "r/f.ts@b2"
    rfl rfl rfl (by decide)

/-- **C8.** Without a supplied committed commit: when the computed blame line (the
selected line minus the git uri's offset) is negative, `execute` returns `undefined`
without consulting blame or dispatching anything (the result is the same for every
blame oracle); and when the blame query returns no result, it shows the warning
message instead of opening a diff. -/
theorem negative_blameline_noop_and_empty_blame_warns (iu : String → Bool)
    (fromUri : String → GitUri)
    (gvf : String → String → Option String → Except Unit String)
    (uri : String) (editorDoc : Option String) (editorLine : Int) (lineArg : Option Int) :
    (resolveLine lineArg editorLine - ((fromUri uri).offset : Int) < 0 →
      ∀ gbl, DiffLineWithPreviousCommand.execute iu fromUri gbl gvf (some uri) editorDoc
        editorLine lineArg none = DLResult.noop) ∧
    (∀ gbl, 0 ≤ resolveLine lineArg editorLine - ((fromUri uri).offset : Int) →
      gbl (fromUri uri).fsPath (resolveLine lineArg editorLine - ((fromUri uri).offset : Int))
        (fromUri uri).sha (fromUri uri).repoPath = Except.ok none →
      DiffLineWithPreviousCommand.execute iu fromUri gbl gvf (some uri) editorDoc
        editorLine lineArg none = DLResult.warningMsg) := by
  constructor
  · intro hneg gbl
    unfold DiffLineWithPreviousCommand.execute blameAndDiff
    simp [resolveUri, hneg]
  · intro gbl hpos hblame
    unfold DiffLineWithPreviousCommand.execute blameAndDiff
    simp [resolveUri, not_lt.mpr hpos, hblame]

/-- Witness for C8: the editor sitting on line 0 of a view with offset 2 (blame line
−2) yields the silent bail-out; with offset 0 and an empty blame, the warning. -/
theorem negative_blameline_noop_and_empty_blame_warns_witness :
    (DiffLineWithPreviousCommand.execute isUncommFx
        (fun u => { fsPath := u, repoPath := "r", offset := 2 })
        (fun _ _ _ _ => Except.ok none) (fun f _ _ => Except.ok f)
        (some "r/f.ts") none 0 none none = DLResult.noop) ∧
    (DiffLineWithPreviousCommand.execute isUncommFx
        (fun u => { fsPath := u, repoPath := "r" })
        (fun _ _ _ _ => Except.ok none) (fun f _ _ => Except.ok f)
        (some "r/f.ts") none 0 none none = DLResult.warningMsg) :=
  ⟨(negative_blameline_noop_and_empty_blame_warns isUncommFx
      (fun u => { fsPath := u, repoPath := "r", offset := 2 })
      (fun f _ _ => Except.ok f) "r/f.ts" none 0 none).1 (by decide)
      (fun _ _ _ _ => Except.ok none),
   (negative_blameline_noop_and_empty_blame_warns isUncommFx
      (fun u => { fsPath := u, repoPath := "r" })
      (fun f _ _ => Except.ok f) "r/f.ts" none 0 none).2
      (fun _ _ _ _ => Except.ok none) (by decide) rfl⟩

/-- Every item built for a stash (every push not guarded by `if (!stash)`) is one of
the non-commit-specific entries. -/
theorem buildItems_stash_nonspecific (c : GitCommit) (rem : List Remote) (bn : String)
    (gb : Bool) :
    (buildItems true c rem bn gb).all (fun i => !i.isCommitSpecific) = true := by
  cases hgb : gb <;> cases hw : c.workingFileName <;>
    by_cases hs : c.status = some 'D' <;>
    by_cases hr : 0 < (rem.filter (fun x => x.provider.isSome)).length <;>
    simp [buildItems, hgb, hw, hs, hr, QPItem.isCommitSpecific]

/-- Every commit-specific item appears (under its other conditions) in the list
built for a non-stash commit. -/
theorem buildItems_nonstash_members (c : GitCommit) (rem : List Remote) (bn : String)
    (gb : Bool) :
    QPItem.showCommitDetails c.sha ∈ buildItems false c rem bn gb ∧
    (c.previousSha.isSome = true →
      QPItem.compareWithPrevious c.sha ∈ buildItems false c rem bn gb) ∧
    QPItem.copySha c.sha ∈ buildItems false c rem bn gb ∧
    QPItem.copyMessage c.message c.sha ∈ buildItems false c rem bn gb ∧
    (0 < (rem.filter (fun x => x.provider.isSome)).length →
      QPItem.openRemotesRevision c.fileName c.sha ∈ buildItems false c rem bn gb) ∧
    QPItem.showFileHistoryFrom c.sha ∈ buildItems false c rem bn gb := by
  cases hgb : gb <;> cases hp : c.previousSha <;> cases hw : c.workingFileName <;>
    by_cases hs : c.status = some 'D' <;>
    by_cases hr : 0 < (rem.filter (fun x => x.provider.isSome)).length <;>
    simp [buildItems, hgb, hp, hw, hs, hr]

/-- **C6.** For a stash commit, the built picker omits every commit-specific action
(Show Commit Details, Compare File with Previous Revision, the two clipboard copies,
the revision remote item, the from-commit file history) and installs no previous /
next keyboard navigation command; a non-stash commit gets each of these items
subject to its other conditions. -/
theorem stash_omits_commit_actions (iu : String → Bool) (glc : String → Option GitCommit)
    (gr : String → List Remote) (bn : String) (commit : GitCommit) (gb : Bool)
    (log : Option GitLog) (r : ShowResult)
    (hshow : CommitFileDetailsQuickPick.show iu glc gr bn commit gb log = some r) :
    (commit.type = GitCommitType.stash →
      r.items.all (fun i => !i.isCommitSpecific) = true ∧
      r.previousCommand = none ∧ r.nextCommand = none) ∧
    (commit.type ≠ GitCommitType.stash →
      QPItem.showCommitDetails r.commit.sha ∈ r.items ∧
      (r.commit.previousSha.isSome = true →
        QPItem.compareWithPrevious r.commit.sha ∈ r.items) ∧
      QPItem.copySha r.commit.sha ∈ r.items ∧
      QPItem.copyMessage r.commit.message r.commit.sha ∈ r.items ∧
      (0 < ((gr r.commit.repoPath).filter (fun x => x.provider.isSome)).length →
        QPItem.openRemotesRevision r.commit.fileName r.commit.sha ∈ r.items) ∧
      QPItem.showFileHistoryFrom r.commit.sha ∈ r.items) := by
  have main : ∀ c : GitCommit,
      r = mkShowResult gr bn (decide (commit.type = GitCommitType.stash)) gb log c →
      (commit.type = GitCommitType.stash →
        r.items.all (fun i => !i.isCommitSpecific) = true ∧
        r.previousCommand = none ∧ r.nextCommand = none) ∧
      (commit.type ≠ GitCommitType.stash →
        QPItem.showCommitDetails r.commit.sha ∈ r.items ∧
        (r.commit.previousSha.isSome = true →
          QPItem.compareWithPrevious r.commit.sha ∈ r.items) ∧
        QPItem.copySha r.commit.sha ∈ r.items ∧
        QPItem.copyMessage r.commit.message r.commit.sha ∈ r.items ∧
        (0 < ((gr r.commit.repoPath).filter (fun x => x.provider.isSome)).length →
          QPItem.openRemotesRevision r.commit.fileName r.commit.sha ∈ r.items) ∧
        QPItem.showFileHistoryFrom r.commit.sha ∈ r.items) := by
    intro c hr
    subst hr
    constructor
    · intro hstash
      rw [hstash]
      refine ⟨buildItems_stash_nonspecific c (gr c.repoPath) bn gb, ?_, ?_⟩ <;>
        simp [mkShowResult, buildNavCommands]
    · intro hstash
      have hd : decide (commit.type = GitCommitType.stash) = false := by
        simpa using hstash
      rw [hd]
      exact buildItems_nonstash_members c (gr c.repoPath) bn gb
  unfold CommitFileDetailsQuickPick.show at hshow
  by_cases hiu : iu commit.sha = true
  · rw [if_pos hiu] at hshow
    cases hg : glc commit.uri with
    | none => rw [hg] at hshow; exact absurd hshow (by simp)
    | some c =>
      rw [hg] at hshow
      rw [Option.some.injEq] at hshow
      exact main c hshow.symm
  · rw [if_neg hiu] at hshow
    rw [Option.some.injEq] at hshow
    exact main commit hshow.symm

/-- Witness for C6 at a stash revision of a tracked file. -/
theorem stash_omits_commit_actions_witness :
    (commitStash.type = GitCommitType.stash →
      (mkShowResult (fun _ => []) "main" true false none commitStash).items.all
        (fun i => !i.isCommitSpecific) = true ∧
      (mkShowResult (fun _ => []) "main" true false none commitStash).previousCommand = none ∧
      (mkShowResult (fun _ => []) "main" true false none commitStash).nextCommand = none) ∧
    (commitStash.type ≠ GitCommitType.stash →
      QPItem.showCommitDetails
          (mkShowResult (fun _ => []) "main" true false none commitStash).commit.sha ∈
        (mkShowResult (fun _ => []) "main" true false none commitStash).items ∧
      ((mkShowResult (fun _ => []) "main" true false none commitStash).commit.previousSha.isSome
          = true →
        QPItem.compareWithPrevious
            (mkShowResult (fun _ => []) "main" true false none commitStash).commit.sha ∈
          (mkShowResult (fun _ => []) "main" true false none commitStash).items) ∧
      QPItem.copySha
          (mkShowResult (fun _ => []) "main" true false none commitStash).commit.sha ∈
        (mkShowResult (fun _ => []) "main" true false none commitStash).items ∧
      QPItem.copyMessage
          (mkShowResult (fun _ => []) "main" true false none commitStash).commit.message
          (mkShowResult (fun _ => []) "main" true false none commitStash).commit.sha ∈
        (mkShowResult (fun _ => []) "main" true false none commitStash).items ∧
      (0 < (((fun _ => [] : String → List Remote)
            (mkShowResult (fun _ => []) "main" true false none commitStash).commit.repoPath).filter
            (fun x => x.provider.isSome)).length →
        QPItem.openRemotesRevision
            (mkShowResult (fun _ => []) "main" true false none commitStash).commit.fileName
            (mkShowResult (fun _ => []) "main" true false none commitStash).commit.sha ∈
          (mkShowResult (fun _ => []) "main" true false none commitStash).items) ∧
      QPItem.showFileHistoryFrom
          (mkShowResult (fun _ => []) "main" true false none commitStash).commit.sha ∈
        (mkShowResult (fun _ => []) "main" true false none commitStash).items) :=
  stash_omits_commit_actions (fun _ => false) (fun _ => none) (fun _ => []) "main" commitStash
    false none (mkShowResult (fun _ => []) "main" true false none commitStash) rfl

end GitLens
